import Mathlib

/-!
Verification of the icon-theme generation pipeline of vscode-iconpreview
(src/extension.ts) against its specification.  The TypeScript source is
shallowly embedded: each function of the extension becomes a Lean
definition over explicit state (the workspace file list, the
configuration, and the output directory contents of the extension), and the
properties of the specification are proved or refuted about those
definitions.
-/

namespace IconPreview

/-! ### Path helpers (model of the Node `path` module, posix flavour) -/

/-- Model of `path.join(d, f)` for a directory and a single file name. -/
def pathJoin (d f : String) : String := d ++ "/" ++ f

/-- Accumulating pass behind `pathBasename`. -/
def basenameAux : List Char → List Char → List Char
  | acc, [] => acc.reverse
  | acc, c :: cs => if c = '/' then basenameAux [] cs else basenameAux (c :: acc) cs

/-- Model of `path.basename`: the substring after the last slash. -/
def pathBasename (p : String) : String := ⟨basenameAux [] p.data⟩

/-- Suffix of a character list starting at its last dot, if any. -/
def lastDotSuffix : List Char → Option (List Char)
  | [] => none
  | c :: cs =>
    match lastDotSuffix cs with
    | some s => some s
    | none => if c = '.' then some (c :: cs) else none

/-- Model of `path.extname`: the suffix of the base name from its last
dot, where a dot in the very first position does not count (Node returns
the empty string for names such as `.png`). -/
def pathExtname (p : String) : String :=
  match (pathBasename p).data with
  | [] => ""
  | _ :: rest =>
    match lastDotSuffix rest with
    | some s => ⟨s⟩
    | none => ""

/-- Characters of a path strictly before its last slash, if it has one. -/
def dirnameAux : List Char → Option (List Char)
  | [] => none
  | c :: cs =>
    match dirnameAux cs with
    | some d => some (c :: d)
    | none => if c = '/' then some [] else none

/-- Model of `path.dirname`. -/
def pathDirname (p : String) : String :=
  match dirnameAux p.data with
  | some [] => "/"
  | some d => ⟨d⟩
  | none => "."

/-- Model of `path.relative(fromDir, target)` restricted to the one case
the extension exercises: a target lying directly under `fromDir`.  Other
targets are returned unchanged. -/
def pathRelative (fromDir target : String) : String :=
  let pre := fromDir ++ "/"
  if pre.data.isPrefixOf target.data then ⟨target.data.drop pre.data.length⟩
  else target

/-- Resolution of an `iconPath` value against the directory holding the
descriptor, as the host does when loading the theme: a leading `./` is
stripped, and the remainder is joined to the directory. -/
def resolveIconPath (dir rel : String) : String :=
  if ("./").data.isPrefixOf rel.data then pathJoin dir ⟨rel.data.drop 2⟩
  else pathJoin dir rel

/-! ### Insertion-ordered string records (model of plain JS objects)

A JS object keeps keys in insertion order; assigning to an existing key
updates the value but keeps the key at its original position, and
`JSON.stringify` serializes keys in that order.  Objects built by the
extension never hold duplicate keys, so the assoc-list update below is a
faithful model of `m[k] = v`. -/

/-- A JS object with string values, as an insertion-ordered list. -/
abbrev JRecord := List (String × String)

/-- Model of the lookup `m[k]` on a JS object. -/
def recordGet : JRecord → String → Option String
  | [], _ => none
  | p :: m, k => if p.1 == k then some p.2 else recordGet m k

/-- Whether a record has the given key. -/
def recordHasKey (m : JRecord) (k : String) : Bool := (recordGet m k).isSome

/-- Model of the assignment `m[k] = v` on a JS object: update in place
when the key exists, append otherwise. -/
def recordSet : JRecord → String → String → JRecord
  | [], k, v => [(k, v)]
  | p :: m, k, v => if p.1 == k then (k, v) :: m else p :: recordSet m k v

theorem recordGet_recordSet (m : JRecord) (k v k' : String) :
    recordGet (recordSet m k v) k' = if k' = k then some v else recordGet m k' := by
  induction m with
  | nil =>
    by_cases h : k' = k
    · simp [recordSet, recordGet, h]
    · have h2 : ¬ k = k' := fun hkk => h hkk.symm
      simp [recordSet, recordGet, h, h2]
  | cons p m ih =>
    by_cases hpk : p.1 = k
    · by_cases h : k' = k
      · simp [recordSet, recordGet, hpk, h]
      · have h2 : ¬ k = k' := fun hkk => h hkk.symm
        simp [recordSet, recordGet, hpk, h, h2]
    · by_cases hpk' : p.1 = k'
      · have h : ¬ k' = k := fun hk => hpk (hpk'.trans hk)
        simp [recordSet, recordGet, hpk, hpk', h]
      · simp [recordSet, recordGet, hpk, hpk', ih]

theorem recordGet_ne_none_of_recordSet_prev (m : JRecord) (k v p : String)
    (h : recordGet m p ≠ none) : recordGet (recordSet m k v) p ≠ none := by
  rw [recordGet_recordSet]
  by_cases hp : p = k <;> simp [hp, h]

theorem recordHasKey_recordSet (m : JRecord) (k v k' : String) :
    recordHasKey (recordSet m k v) k' = (k' == k || recordHasKey m k') := by
  rw [recordHasKey, recordGet_recordSet]
  by_cases h : k' = k <;> simp [h, recordHasKey]

/-! ### Configuration (model of `vscode.workspace.getConfiguration`) -/

/-- The `tlcsdm.iconpreview` configuration section: each option either
set by the user or absent (in which case the coded default applies). -/
structure Config where
  supportedExtensions : Option (List String) := none
  iconSize : Option Int := none
  autoActivate : Option Bool := none

/-- Embedding of `getSupportedExtensions` from src/extension.ts. -/
def getSupportedExtensions (c : Config) : List String :=
  c.supportedExtensions.getD ["png", "jpg", "jpeg", "gif", "bmp", "ico", "svg", "webp"]

/-- Embedding of `getIconSize` from src/extension.ts. -/
def getIconSize (c : Config) : Int :=
  c.iconSize.getD 16

/-! ### Icon identifiers -/

/-- The per-character action of the regex replacement in
`generateIconId`: every character outside `[a-zA-Z0-9]` becomes an
underscore. -/
def normalizeIdChar (ch : Char) : Char := if ch.isAlphanum then ch else '_'

/-- The whole-string normalization performed by `generateIconId`,
applied character by character. -/
def normalizeId (s : String) : String := ⟨s.data.map normalizeIdChar⟩

/-- Embedding of `generateIconId` from src/extension.ts. -/
def generateIconId (filePath : String) : String :=
  "img_" ++ normalizeId filePath

/-- Claim C1: refuted as stated.  Icon identifier generation is not
injective: the two distinct source paths `/a/b.png` and `/a.b.png`
receive the same identifier, because the normalization collapses every
non-alphanumeric character to an underscore. -/
theorem generateIconId_collision :
    generateIconId "/a/b.png" = generateIconId "/a.b.png" ∧
      "/a/b.png" ≠ "/a.b.png" := by
  constructor
  · decide
  · decide

/-- Claim C1 (amended): `generateIconId` is deterministic (a pure
function of the path), and two paths receive the same identifier exactly
when their normalizations — every non-alphanumeric character replaced by
an underscore — coincide; distinct paths that differ only in
non-alphanumeric characters therefore collide. -/
theorem generateIconId_eq_iff (a b : String) :
    generateIconId a = generateIconId b ↔ normalizeId a = normalizeId b := by
  constructor
  · intro h
    have hdata := congrArg String.data h
    simp only [generateIconId, String.data_append] at hdata
    exact String.ext (List.append_cancel_left hdata)
  · intro h
    simp [generateIconId, h]

/-! ### Render and file-system effects -/

/-- One invocation of `generateThumbnail` (a `sharp(...).resize(...)`
call): source path, destination path, and the square size passed to the
resizer. -/
structure RenderOp where
  src : String
  dst : String
  size : Int
deriving DecidableEq, Repr

/-- File-system operations a cycle can perform on the output area. -/
inductive FsOp where
  | write (target : String) (content : String)
  | rename (src : String) (target : String)
deriving DecidableEq, Repr

/-- Whether the operation is an atomic rename/replace. -/
def FsOp.isRename : FsOp → Bool
  | .rename _ _ => true
  | .write _ _ => false

/-- The path an operation creates or replaces. -/
def FsOp.target : FsOp → String
  | .write t _ => t
  | .rename _ t => t

/-- Abstract PNG bytes produced by a successful thumbnail render of the
given source at the given square size (sharp output is deterministic in
source bytes and size). -/
def thumbBytes (src : String) (size : Int) : String :=
  "PNG(" ++ src ++ "," ++ toString size ++ ")"

/-- A fixed workspace state as seen by one regeneration cycle:
`imageFiles` is the list `findImageFiles` returns (workspace scan, in
traversal order), `renderOk` the per-source outcome of sharp, `config`
the configuration section, and `disk` the contents of the extension
output area (path to bytes).  The output area lies under the extension
install path, so the workspace scan never sees it. -/
structure World where
  imageFiles : List String
  renderOk : String → Bool
  config : Config
  disk : JRecord

/-! ### The icon theme object and its serialization -/

/-- The object built by `generateIconTheme` (the varying parts; the
`file`, `folder` and `folderExpanded` fields are constants). -/
structure IconTheme where
  iconDefinitions : JRecord
  fileExtensions : JRecord
  fileNames : JRecord
deriving DecidableEq, Repr

/-- JSON string escaping for the characters that can occur in the
keys and values of the pipeline. -/
def jsonEscapeChar (c : Char) : String :=
  if c = '"' then "\\\"" else if c = '\\' then "\\\\" else ⟨[c]⟩

/-- A JSON string literal. -/
def jsonString (s : String) : String :=
  "\"" ++ String.join (s.data.map jsonEscapeChar) ++ "\""

/-- Layout of a JSON object under `JSON.stringify(x, null, 2)`: `pad` is
the indentation of the line on which the object opens. -/
def jsonObjectLines (pad : String) (entries : List String) : String :=
  if entries.isEmpty then "\x7b\x7d"
  else
    "\x7b\n" ++ String.intercalate ",\n" (entries.map (fun e => pad ++ "  " ++ e)) ++
      "\n" ++ pad ++ "\x7d"

/-- Serialization of a string-valued record. -/
def serializeStringRecord (pad : String) (m : JRecord) : String :=
  jsonObjectLines pad (m.map (fun kv => jsonString kv.1 ++ ": " ++ jsonString kv.2))

/-- Serialization of `iconDefinitions`, whose values are one-field
objects holding the `iconPath`. -/
def serializeIconDefinitions (pad : String) (m : JRecord) : String :=
  jsonObjectLines pad (m.map (fun kv =>
    jsonString kv.1 ++ ": " ++
      jsonObjectLines (pad ++ "  ") [jsonString "iconPath" ++ ": " ++ jsonString kv.2]))

/-- Model of `JSON.stringify(iconTheme, null, 2)` for the object written
by `generateIconTheme`. -/
def serializeIconTheme (t : IconTheme) : String :=
  jsonObjectLines "" [
    jsonString "iconDefinitions" ++ ": " ++ serializeIconDefinitions "  " t.iconDefinitions,
    jsonString "file" ++ ": " ++ jsonString "_file",
    jsonString "folder" ++ ": " ++ jsonString "_folder",
    jsonString "folderExpanded" ++ ": " ++ jsonString "_folder_open",
    jsonString "fileExtensions" ++ ": " ++ serializeStringRecord "  " t.fileExtensions,
    jsonString "fileNames" ++ ": " ++ serializeStringRecord "  " t.fileNames]

/-! ### The regeneration cycle (`generateIconTheme`) -/

/-- State carried through the image-file loop of `generateIconTheme`. -/
structure LoopState where
  iconDefinitions : JRecord
  fileNames : JRecord
  disk : JRecord
  ops : List FsOp
  renders : List RenderOp

/-- File name of the descriptor, fixed in `activate`. -/
def iconThemeFileName : String := "iconpreview-icon-theme.json"

/-- The canonical descriptor path (`iconThemePath` in `activate`). -/
def iconThemePath (outDir : String) : String := pathJoin outDir iconThemeFileName

/-- JS `s.slice(1)`. -/
def sliceOne (s : String) : String := ⟨s.data.drop 1⟩

/-- JS `s.toLowerCase()`, applied character by character. -/
def lowerStr (s : String) : String := ⟨s.data.map Char.toLower⟩

/-- The lower-cased, dot-free extension the loop computes:
`path.extname(filePath).toLowerCase().slice(1)`. -/
def fileExtOf (filePath : String) : String := sliceOne (lowerStr (pathExtname filePath))

/-- The guard of the loop body: the extension of the file is in the supported
set. -/
def fileQualifiesExt (supported : List String) (filePath : String) : Bool :=
  supported.contains (fileExtOf filePath)

/-- The deterministic thumbnail output path for a source file:
`path.join(outputIconsDir, iconId + ".png")`. -/
def thumbnailPathOf (outDir filePath : String) : String :=
  pathJoin outDir (generateIconId filePath ++ ".png")

/-- The `iconPath` value recorded for a source file: the thumbnail path
relative to the directory holding the descriptor. -/
def relativeIconPath (outDir filePath : String) : String :=
  pathRelative (pathDirname (iconThemePath outDir)) (thumbnailPathOf outDir filePath)

/-- One iteration of the `for` loop over discovered image files in
`generateIconTheme`: skip unsupported extensions, invoke the renderer on
the deterministic thumbnail path, and on success record the icon
definition, the file-name mapping, and the written thumbnail. -/
def processFile (outDir : String) (supported : List String) (size : Int)
    (renderOk : String → Bool) (st : LoopState) (filePath : String) : LoopState :=
  if fileQualifiesExt supported filePath then
    let st1 := { st with
      renders := st.renders ++ [⟨filePath, thumbnailPathOf outDir filePath, size⟩] }
    if renderOk filePath then
      { iconDefinitions :=
          recordSet st1.iconDefinitions (generateIconId filePath) (relativeIconPath outDir filePath)
        fileNames := recordSet st1.fileNames (pathBasename filePath) (generateIconId filePath)
        disk := recordSet st1.disk (thumbnailPathOf outDir filePath) (thumbBytes filePath size)
        ops := st1.ops ++ [FsOp.write (thumbnailPathOf outDir filePath) (thumbBytes filePath size)]
        renders := st1.renders }
    else st1
  else st

/-- The loop filling `fileExtensions` with `_file` defaults for every
supported extension not already mapped. -/
def buildFileExtensions (supported : List String) : JRecord :=
  supported.foldl (fun m ext => if recordHasKey m ext then m else recordSet m ext "_file") []

/-- The three literal default icon definitions of the theme object. -/
def defaultIconDefinitions : JRecord :=
  [("_file", "./default-file.png"),
   ("_folder", "./default-folder.png"),
   ("_folder_open", "./default-folder-open.png")]

/-- Model of the object literal spread in `generateIconTheme`: the
collected definitions are assigned onto the default ones one by one. -/
def spreadRecord (base adds : JRecord) : JRecord :=
  adds.foldl (fun m kv => recordSet m kv.1 kv.2) base

/-- The three placeholder files of `createDefaultIcons` with the solid
colors the source gives them. -/
def defaultIconFiles : List (String × String) :=
  [("default-file.png", "gray"), ("default-folder.png", "yellow"),
   ("default-folder-open.png", "lightyellow")]

/-- Abstract PNG bytes of a solid-color placeholder icon. -/
def defaultIconBytes (color : String) (size : Int) : String :=
  "PNG[" ++ color ++ "," ++ toString size ++ "]"

/-- Embedding of `createDefaultIcons`: each placeholder icon is written
only when its path is absent from disk. -/
def createDefaultIcons (outDir : String) (size : Int) (acc : JRecord × List FsOp) :
    JRecord × List FsOp :=
  defaultIconFiles.foldl
    (fun acc nc =>
      let p := pathJoin outDir nc.1
      if recordHasKey acc.1 p then acc
      else (recordSet acc.1 p (defaultIconBytes nc.2 size),
            acc.2 ++ [FsOp.write p (defaultIconBytes nc.2 size)]))
    acc

/-- Everything one `generateIconTheme` call produces: the theme object,
the per-file definitions collected by the loop, the serialized JSON, the
disk as of the moment the descriptor write completes (before
`createDefaultIcons` runs), the final disk, and the performed
file-system and render operations in order. -/
structure CycleResult where
  theme : IconTheme
  thumbDefinitions : JRecord
  json : String
  diskAtCommit : JRecord
  disk : JRecord
  ops : List FsOp
  renders : List RenderOp

/-- The image-file loop of `generateIconTheme`, run over the discovered
files in traversal order, starting from the disk of the world and empty
collections. -/
def cycleLoopState (outDir : String) (w : World) : LoopState :=
  w.imageFiles.foldl
    (processFile outDir (getSupportedExtensions w.config) (getIconSize w.config) w.renderOk)
    ⟨[], [], w.disk, [], []⟩

/-- The theme object `generateIconTheme` builds after the loop: the
three literal defaults with the collected definitions spread over them,
the extension defaults, and the collected file-name mapping. -/
def cycleTheme (outDir : String) (w : World) : IconTheme :=
  { iconDefinitions := spreadRecord defaultIconDefinitions (cycleLoopState outDir w).iconDefinitions
    fileExtensions := buildFileExtensions (getSupportedExtensions w.config)
    fileNames := (cycleLoopState outDir w).fileNames }

/-- Embedding of `generateIconTheme` from src/extension.ts: read the
configuration fresh, loop over the discovered files rendering
thumbnails, fill the extension defaults, build the theme object, write
it with a single direct `writeFileSync` to the canonical path, then
create any missing default icons. -/
def generateIconTheme (outDir : String) (w : World) : CycleResult :=
  let st := cycleLoopState outDir w
  let theme := cycleTheme outDir w
  let json := serializeIconTheme theme
  let diskAtCommit := recordSet st.disk (iconThemePath outDir) json
  let opsAtCommit := st.ops ++ [FsOp.write (iconThemePath outDir) json]
  let final := createDefaultIcons outDir (getIconSize w.config) (diskAtCommit, opsAtCommit)
  { theme := theme, thumbDefinitions := st.iconDefinitions, json := json,
    diskAtCommit := diskAtCommit, disk := final.1, ops := final.2,
    renders := st.renders }

/-- The effect of one full regeneration cycle on the world: only the
extension output area changes; the workspace file list, the
configuration and the render outcomes are untouched by the cycle. -/
def runCycle (outDir : String) (w : World) : World :=
  { w with disk := (generateIconTheme outDir w).disk }

/-! ### Projections of the cycle result -/

@[simp] theorem generateIconTheme_theme (outDir : String) (w : World) :
    (generateIconTheme outDir w).theme = cycleTheme outDir w := rfl

@[simp] theorem generateIconTheme_thumbDefinitions (outDir : String) (w : World) :
    (generateIconTheme outDir w).thumbDefinitions = (cycleLoopState outDir w).iconDefinitions := rfl

@[simp] theorem generateIconTheme_json (outDir : String) (w : World) :
    (generateIconTheme outDir w).json = serializeIconTheme (cycleTheme outDir w) := rfl

@[simp] theorem generateIconTheme_renders (outDir : String) (w : World) :
    (generateIconTheme outDir w).renders = (cycleLoopState outDir w).renders := rfl

@[simp] theorem generateIconTheme_diskAtCommit (outDir : String) (w : World) :
    (generateIconTheme outDir w).diskAtCommit =
      recordSet (cycleLoopState outDir w).disk (iconThemePath outDir)
        (serializeIconTheme (cycleTheme outDir w)) := rfl

@[simp] theorem generateIconTheme_disk (outDir : String) (w : World) :
    (generateIconTheme outDir w).disk =
      (createDefaultIcons outDir (getIconSize w.config)
        ((generateIconTheme outDir w).diskAtCommit,
         (cycleLoopState outDir w).ops ++
           [FsOp.write (iconThemePath outDir) (serializeIconTheme (cycleTheme outDir w))])).1 := rfl

@[simp] theorem generateIconTheme_ops (outDir : String) (w : World) :
    (generateIconTheme outDir w).ops =
      (createDefaultIcons outDir (getIconSize w.config)
        ((generateIconTheme outDir w).diskAtCommit,
         (cycleLoopState outDir w).ops ++
           [FsOp.write (iconThemePath outDir) (serializeIconTheme (cycleTheme outDir w))])).2 := rfl

/-! ### Step equations for the loop -/

theorem foldl_induction {α β : Type} (f : α → β → α) (l : List β) (init : α)
    (P : α → Prop) (h0 : P init) (hstep : ∀ a b, P a → P (f a b)) : P (l.foldl f init) := by
  induction l generalizing init with
  | nil => exact h0
  | cons b l ih => exact ih (f init b) (hstep init b h0)

theorem processFile_not_ext (outDir : String) (supported : List String) (size : Int)
    (renderOk : String → Bool) (st : LoopState) (filePath : String)
    (h : fileQualifiesExt supported filePath = false) :
    processFile outDir supported size renderOk st filePath = st := by
  simp [processFile, h]

theorem processFile_render_fail (outDir : String) (supported : List String) (size : Int)
    (renderOk : String → Bool) (st : LoopState) (filePath : String)
    (h : fileQualifiesExt supported filePath = true) (hr : renderOk filePath = false) :
    processFile outDir supported size renderOk st filePath =
      { st with renders := st.renders ++ [⟨filePath, thumbnailPathOf outDir filePath, size⟩] } := by
  simp [processFile, h, hr]

theorem processFile_render_ok (outDir : String) (supported : List String) (size : Int)
    (renderOk : String → Bool) (st : LoopState) (filePath : String)
    (h : fileQualifiesExt supported filePath = true) (hr : renderOk filePath = true) :
    processFile outDir supported size renderOk st filePath =
      { iconDefinitions :=
          recordSet st.iconDefinitions (generateIconId filePath) (relativeIconPath outDir filePath)
        fileNames := recordSet st.fileNames (pathBasename filePath) (generateIconId filePath)
        disk := recordSet st.disk (thumbnailPathOf outDir filePath) (thumbBytes filePath size)
        ops := st.ops ++ [FsOp.write (thumbnailPathOf outDir filePath) (thumbBytes filePath size)]
        renders := st.renders ++ [⟨filePath, thumbnailPathOf outDir filePath, size⟩] } := by
  simp [processFile, h, hr]

/-! ### Claim C2: persistence of the descriptor -/

theorem cycleLoopState_ops_writes (outDir : String) (w : World) :
    ∀ op ∈ (cycleLoopState outDir w).ops, op.isRename = false := by
  unfold cycleLoopState
  refine foldl_induction _ _ _ (fun st : LoopState => ∀ op ∈ st.ops, op.isRename = false) ?_ ?_
  · intro op hop
    simp at hop
  · intro st f hP
    cases hq : fileQualifiesExt (getSupportedExtensions w.config) f with
    | false =>
      rw [processFile_not_ext _ _ _ _ _ _ hq]
      exact hP
    | true =>
      cases hr : w.renderOk f with
      | false =>
        rw [processFile_render_fail _ _ _ _ _ _ hq hr]
        exact hP
      | true =>
        rw [processFile_render_ok _ _ _ _ _ _ hq hr]
        intro op hop
        rcases List.mem_append.mp hop with h | h
        · exact hP op h
        · simp at h
          subst h
          rfl

theorem createDefaultIcons_ops_extends (outDir : String) (size : Int)
    (acc : JRecord × List FsOp) :
    ∃ extra : List FsOp, (createDefaultIcons outDir size acc).2 = acc.2 ++ extra ∧
      ∀ op ∈ extra, op.isRename = false := by
  unfold createDefaultIcons
  refine foldl_induction _ _ _
    (fun acc2 : JRecord × List FsOp => ∃ extra : List FsOp, acc2.2 = acc.2 ++ extra ∧ ∀ op ∈ extra, op.isRename = false)
    ⟨[], by simp⟩ ?_
  intro a nc ⟨extra, heq, hw⟩
  by_cases h : recordHasKey a.1 (pathJoin outDir nc.1) = true
  · exact ⟨extra, by simpa [h] using heq, hw⟩
  · refine ⟨extra ++ [FsOp.write (pathJoin outDir nc.1) (defaultIconBytes nc.2 size)], ?_, ?_⟩
    · simp only [Bool.not_eq_true] at h
      simp [h, heq, List.append_assoc]
    · intro op hop
      rcases List.mem_append.mp hop with h2 | h2
      · exact hw op h2
      · simp at h2
        subst h2
        rfl

/-- World exhibiting the persistence behaviour: one renderable image. -/
def c2World : World := ⟨["a.png"], fun _ => true, {}, []⟩

set_option maxRecDepth 40000 in
/-- Claim C2: refuted as stated.  On a concrete cycle, the file
operations performed contain no rename at all — in particular no atomic
temp-write-and-replace of the descriptor — and instead contain a single
direct write of the descriptor bytes to the canonical path. -/
theorem persist_no_temp_rename :
    ((generateIconTheme "out" c2World).ops.any FsOp.isRename) = false ∧
      ((generateIconTheme "out" c2World).ops.contains
        (FsOp.write (iconThemePath "out") (generateIconTheme "out" c2World).json)) = true := by
  decide

/-- Claim C2 (amended): the descriptor is persisted by one direct
`writeFileSync` of the full serialized content to the canonical path; no
cycle ever performs a rename, so no temporary-file atomic-replace
discipline protects the write. -/
theorem persist_direct_write (outDir : String) (w : World) :
    (∀ op ∈ (generateIconTheme outDir w).ops, op.isRename = false) ∧
      FsOp.write (iconThemePath outDir) (generateIconTheme outDir w).json ∈
        (generateIconTheme outDir w).ops := by
  obtain ⟨extra, heq, hw⟩ := createDefaultIcons_ops_extends outDir (getIconSize w.config)
    ((generateIconTheme outDir w).diskAtCommit,
     (cycleLoopState outDir w).ops ++
       [FsOp.write (iconThemePath outDir) (serializeIconTheme (cycleTheme outDir w))])
  rw [generateIconTheme_ops, generateIconTheme_json, heq]
  constructor
  · intro op hop
    rcases List.mem_append.mp hop with h | h
    · rcases List.mem_append.mp h with h2 | h2
      · exact cycleLoopState_ops_writes outDir w op h2
      · simp at h2
        subst h2
        rfl
    · exact hw op h
  · exact List.mem_append_left _ (List.mem_append_right _ (by simp))

/-- Claim C2 (amended) witness: on the concrete one-file world the
thumbnail write performed by the cycle is not a rename, and the direct
descriptor write is among the operations of the cycle. -/
theorem persist_direct_write_witness :
    (FsOp.write (thumbnailPathOf "out" "a.png") (thumbBytes "a.png" 16)).isRename = false ∧
      FsOp.write (iconThemePath "out") (generateIconTheme "out" c2World).json ∈
        (generateIconTheme "out" c2World).ops :=
  ⟨(persist_direct_write "out" c2World).1
      (FsOp.write (thumbnailPathOf "out" "a.png") (thumbBytes "a.png" 16)) (by decide),
    (persist_direct_write "out" c2World).2⟩

/-! ### Claim C3: overlap of regeneration cycles

The control structure of the source around `generateIconTheme`: the
debounce timer handle `regenerateTimer`, the asynchronous cycles in
flight, and the events that drive them. -/

/-- Events driving the trigger layer: `notify` is a
`scheduleIconRegeneration` call, `fire` the pending timer elapsing
(starting `generateIconTheme`), `refreshCmd` the manual refresh command
(calling `generateIconTheme` directly), and `complete` one in-flight
`generateIconTheme` call finishing. -/
inductive TEvent where
  | notify
  | fire
  | refreshCmd
  | complete
deriving DecidableEq, Repr

/-- Scheduler state: whether `regenerateTimer` holds a timer not yet
elapsed, and how many `generateIconTheme` calls are in flight. -/
structure SchedState where
  timerPending : Bool
  running : Nat
deriving DecidableEq, Repr

/-- One step of the trigger layer, read off the source:
`scheduleIconRegeneration` clears any pending timer and arms a new one;
an elapsing timer starts a cycle with no in-flight check; the refresh
command starts a cycle unconditionally; a completing cycle simply ends.
No component of the state records an owed follow-up cycle. -/
def schedStep (s : SchedState) : TEvent → SchedState
  | .notify => { s with timerPending := true }
  | .fire =>
    if s.timerPending then { timerPending := false, running := s.running + 1 } else s
  | .refreshCmd => { s with running := s.running + 1 }
  | .complete => { s with running := s.running - 1 }

/-- Run the trigger layer from the initial state (no timer, nothing in
flight) over a sequence of events. -/
def schedExec (evs : List TEvent) : SchedState :=
  evs.foldl schedStep ⟨false, 0⟩

/-- Claim C3: refuted as stated.  After a debounced trigger fires and
while its cycle is still in flight, the manual refresh command starts a
second concurrent cycle (two cycles in flight); and once both complete,
the scheduler holds no pending follow-up of any kind, so no follow-up
cycle runs. -/
theorem singleFlight_violated :
    (schedExec [TEvent.notify, TEvent.fire, TEvent.refreshCmd]).running = 2 ∧
      schedExec [TEvent.notify, TEvent.fire, TEvent.refreshCmd, TEvent.complete,
        TEvent.complete] = ⟨false, 0⟩ := by
  decide

/-- Claim C3 (amended): the coordinator has no single-flight guard.  A
manual refresh always starts one more cycle immediately — whatever is
already in flight — and leaves the debounce timer untouched; overlap is
prevented by nothing, and no follow-up is ever recorded. -/
theorem refresh_always_starts_cycle (evs : List TEvent) :
    (schedExec (evs ++ [TEvent.refreshCmd])).running = (schedExec evs).running + 1 ∧
      (schedExec (evs ++ [TEvent.refreshCmd])).timerPending = (schedExec evs).timerPending := by
  simp [schedExec, List.foldl_append, schedStep]

/-! ### Claim C5: trailing-edge debounce -/

/-- The debounce quiet interval of `scheduleIconRegeneration`, in
milliseconds. -/
def debounceMs : Nat := 500

/-- Debounce layer state: the absolute time at which the armed timer
will elapse, if one is armed, and the start times of the regeneration
invocations so far. -/
structure DebState where
  pending : Option Nat
  fires : List Nat
deriving DecidableEq, Repr

/-- Effect of a `scheduleIconRegeneration` call at absolute time `t`: an
armed timer whose deadline has passed already fired (its regeneration
started) before `t`; a still-armed timer is cancelled by `clearTimeout`;
either way `setTimeout` arms a new timer for `t + 500`. -/
def debNotify (s : DebState) (t : Nat) : DebState :=
  match s.pending with
  | none => { pending := some (t + debounceMs), fires := s.fires }
  | some d =>
    if d ≤ t then { pending := some (t + debounceMs), fires := s.fires ++ [d] }
    else { pending := some (t + debounceMs), fires := s.fires }

/-- Run the debounce layer over the increasing times of a series of
trigger notifications. -/
def debRun (ts : List Nat) : DebState :=
  ts.foldl debNotify { pending := none, fires := [] }

/-- All regeneration invocations a series of notifications causes, the
finally armed timer included (it elapses once input stays quiet). -/
def debFires (ts : List Nat) : List Nat :=
  match debRun ts with
  | ⟨none, fires⟩ => fires
  | ⟨some d, fires⟩ => fires ++ [d]

theorem debRun_burst (ts : List Nat) : ∀ (t0 : Nat) (acc : List Nat),
    List.Chain' (fun a b => a < b ∧ b < a + debounceMs) (t0 :: ts) →
    ts.foldl debNotify ⟨some (t0 + debounceMs), acc⟩ =
      ⟨some ((t0 :: ts).getLast (List.cons_ne_nil t0 ts) + debounceMs), acc⟩ := by
  induction ts with
  | nil =>
    intro t0 acc _
    simp [List.getLast]
  | cons t1 ts ih =>
    intro t0 acc h
    rw [List.chain'_cons] at h
    obtain ⟨h01, hrest⟩ := h
    have hd : ¬ (t0 + debounceMs ≤ t1) := by omega
    simp only [List.foldl_cons, debNotify, hd, if_false]
    rw [ih t1 acc hrest]
    simp [List.getLast]

theorem debRun_spaced (ts : List Nat) : ∀ (t0 : Nat) (acc : List Nat),
    List.Chain' (fun a b => a + debounceMs < b) (t0 :: ts) →
    ts.foldl debNotify ⟨some (t0 + debounceMs), acc⟩ =
      ⟨some ((t0 :: ts).getLast (List.cons_ne_nil t0 ts) + debounceMs),
        acc ++ ((t0 :: ts).dropLast.map (fun t => t + debounceMs))⟩ := by
  induction ts with
  | nil =>
    intro t0 acc _
    simp [List.getLast]
  | cons t1 ts ih =>
    intro t0 acc h
    rw [List.chain'_cons] at h
    obtain ⟨h01, hrest⟩ := h
    have hd : t0 + debounceMs ≤ t1 := by omega
    simp only [List.foldl_cons, debNotify, hd, if_true]
    rw [ih t1 (acc ++ [t0 + debounceMs]) hrest]
    simp [List.getLast, List.dropLast]

/-- Claim C5: trigger notifications are debounced trailing-edge with a
500 ms quiet interval.  A burst of notifications each arriving strictly
within 500 ms of the previous one causes exactly one regeneration
invocation, at 500 ms after the last notification (none starts before
input goes quiet); notifications each spaced strictly beyond 500 ms
cause one invocation per notification, each 500 ms after its trigger. -/
theorem debounce_trailing_edge (t0 : Nat) (ts : List Nat) :
    (List.Chain' (fun a b => a < b ∧ b < a + debounceMs) (t0 :: ts) →
      debFires (t0 :: ts) = [(t0 :: ts).getLast (List.cons_ne_nil t0 ts) + debounceMs]) ∧
    (List.Chain' (fun a b => a + debounceMs < b) (t0 :: ts) →
      debFires (t0 :: ts) = (t0 :: ts).map (fun t => t + debounceMs)) := by
  constructor
  · intro h
    unfold debFires debRun
    simp only [List.foldl_cons]
    have h0 : debNotify ⟨none, []⟩ t0 = ⟨some (t0 + debounceMs), []⟩ := rfl
    rw [h0, debRun_burst ts t0 [] h]
    rfl
  · intro h
    unfold debFires debRun
    simp only [List.foldl_cons]
    have h0 : debNotify ⟨none, []⟩ t0 = ⟨some (t0 + debounceMs), []⟩ := rfl
    rw [h0, debRun_spaced ts t0 [] h]
    show (t0 :: ts).dropLast.map (fun t => t + debounceMs) ++
        [(t0 :: ts).getLast (List.cons_ne_nil t0 ts) + debounceMs] =
      (t0 :: ts).map (fun t => t + debounceMs)
    have hsplit : (t0 :: ts).dropLast.map (fun t => t + debounceMs) ++
        [(t0 :: ts).getLast (List.cons_ne_nil t0 ts) + debounceMs] =
        ((t0 :: ts).dropLast ++ [(t0 :: ts).getLast (List.cons_ne_nil t0 ts)]).map
          (fun t => t + debounceMs) := by
      simp
    rw [hsplit, List.dropLast_append_getLast]

/-- Claim C5 witness: three notifications 100 ms apart produce a single
invocation at 700 ms; three notifications 600 ms apart produce three
invocations. -/
theorem debounce_trailing_edge_witness :
    debFires [0, 100, 200] = [700] ∧ debFires [0, 600, 1200] = [500, 1100, 1700] :=
  ⟨((debounce_trailing_edge 0 [100, 200]).1
      (by simp only [List.chain'_cons, List.chain'_singleton, debounceMs]; decide)).trans
      (by decide),
    ((debounce_trailing_edge 0 [600, 1200]).2
      (by simp only [List.chain'_cons, List.chain'_singleton, debounceMs]; decide)).trans
      (by decide)⟩

/-! ### Claim C8: icon size configuration -/

/-- Claim C8 (amended): no clamping of the icon size occurs anywhere in
the pipeline.  Every renderer invocation of a cycle is passed exactly
the configured `iconSize` value (defaulting to 16 when unset), whatever
it is. -/
theorem render_size_unclamped (outDir : String) (w : World) :
    ∀ op ∈ (generateIconTheme outDir w).renders, op.size = getIconSize w.config := by
  rw [generateIconTheme_renders]
  unfold cycleLoopState
  refine foldl_induction _ _ _
    (fun st : LoopState => ∀ op ∈ st.renders, op.size = getIconSize w.config) ?_ ?_
  · intro op hop
    simp at hop
  · intro st f hP
    cases hq : fileQualifiesExt (getSupportedExtensions w.config) f with
    | false =>
      rw [processFile_not_ext _ _ _ _ _ _ hq]
      exact hP
    | true =>
      cases hr : w.renderOk f with
      | false =>
        rw [processFile_render_fail _ _ _ _ _ _ hq hr]
        intro op hop
        rcases List.mem_append.mp hop with h | h
        · exact hP op h
        · simp at h
          subst h
          rfl
      | true =>
        rw [processFile_render_ok _ _ _ _ _ _ hq hr]
        intro op hop
        rcases List.mem_append.mp hop with h | h
        · exact hP op h
        · simp at h
          subst h
          rfl

/-- World with an out-of-range configured icon size. -/
def c8World : World := ⟨["a.png"], fun _ => true, { iconSize := some 100 }, []⟩

/-- Claim C8: refuted as stated.  With `iconSize` configured to 100, the
cycle invokes the renderer with size 100 — outside the documented range
[8, 32] — because `getIconSize` returns the configured value without any
clamping. -/
theorem iconSize_not_clamped :
    (generateIconTheme "out" c8World).renders.map RenderOp.size = [100] ∧
      ¬ ((8 : Int) ≤ 100 ∧ (100 : Int) ≤ 32) := by
  constructor
  · decide
  · decide

/-- Claim C8 (amended) witness: the one render of the concrete cycle
got exactly the configured size 100. -/
theorem render_size_unclamped_witness :
    (⟨"a.png", thumbnailPathOf "out" "a.png", 100⟩ : RenderOp).size = getIconSize c8World.config :=
  render_size_unclamped "out" c8World ⟨"a.png", thumbnailPathOf "out" "a.png", 100⟩ (by decide)

/-! ### Claim C10: the watch pattern is fixed at activation -/

/-- The extension list baked into the watcher glob built in `activate`:
it is computed once, from the configuration current at activation. -/
def activationWatcherExts (activationConfig : Config) : List String :=
  getSupportedExtensions activationConfig

/-- Host events reaching the subscriptions registered in `activate`, at
the granularity relevant here: file events carry the (dot-free)
extension of the affected file, a configuration event carries whether it
affects the `tlcsdm.iconpreview` section. -/
inductive HostEvent where
  | fileCreated (ext : String)
  | fileChanged (ext : String)
  | fileDeleted (ext : String)
  | configChanged (affectsIconPreview : Bool)
  | workspaceFoldersChanged
deriving DecidableEq, Repr

/-- Whether the handlers registered in `activate` end up calling
`scheduleIconRegeneration` for an event: the three file-watcher handlers
run only when the file matches the glob fixed at activation time; the
configuration handler checks `affectsConfiguration`; the
workspace-folder handler always schedules. -/
def eventSchedules (watcherExts : List String) : HostEvent → Bool
  | .fileCreated e => watcherExts.contains e
  | .fileChanged e => watcherExts.contains e
  | .fileDeleted e => watcherExts.contains e
  | .configChanged a => a
  | .workspaceFoldersChanged => true

/-- Claim C10: confirmed.  The watcher pattern is fixed from the
supported extensions at activation time: for an extension present only
in the later configuration, no file create/change/delete event on files
with that extension ever schedules a regeneration, while the
configuration-change event itself does schedule one. -/
theorem watch_pattern_fixed_at_activation (cfg0 cfgLater : Config) (e : String)
    (_hLater : e ∈ getSupportedExtensions cfgLater)
    (h0 : e ∉ getSupportedExtensions cfg0) :
    (eventSchedules (activationWatcherExts cfg0) (HostEvent.fileCreated e) = false ∧
      eventSchedules (activationWatcherExts cfg0) (HostEvent.fileChanged e) = false ∧
      eventSchedules (activationWatcherExts cfg0) (HostEvent.fileDeleted e) = false) ∧
    eventSchedules (activationWatcherExts cfg0) (HostEvent.configChanged true) = true := by
  have hc : (activationWatcherExts cfg0).contains e = false := by
    simpa [activationWatcherExts] using h0
  exact ⟨⟨hc, hc, hc⟩, rfl⟩

/-- Claim C10 witness: with the default activation configuration and
`tiff` added afterwards, `tiff` file events schedule nothing and the
configuration-change event schedules a cycle. -/
theorem watch_pattern_fixed_at_activation_witness :
    eventSchedules (activationWatcherExts {}) (HostEvent.fileCreated "tiff") = false ∧
      eventSchedules (activationWatcherExts {}) (HostEvent.configChanged true) = true :=
  ⟨(watch_pattern_fixed_at_activation {}
      { supportedExtensions := some ["png", "tiff"] } "tiff" (by decide) (by decide)).1.1,
    (watch_pattern_fixed_at_activation {}
      { supportedExtensions := some ["png", "tiff"] } "tiff" (by decide) (by decide)).2⟩

/-! ### Claim C4: dependence of assembly on traversal order -/

/-- Whether a discovered file contributes entries to the descriptor: its
extension is supported and its render succeeds. -/
def fileContributes (supported : List String) (renderOk : String → Bool) (f : String) : Bool :=
  fileQualifiesExt supported f && renderOk f

/-- The two traversal orders of the same two-file workspace, one file
named `x.png` in each of two directories. -/
def c4WorldA : World := ⟨["dir1/x.png", "dir2/x.png"], fun _ => true, {}, []⟩

/-- The same workspace as `c4WorldA` discovered in the opposite order. -/
def c4WorldB : World := ⟨["dir2/x.png", "dir1/x.png"], fun _ => true, {}, []⟩

set_option maxRecDepth 80000 in
/-- Claim C4: refuted as stated.  The same workspace state discovered in
two different traversal orders yields different descriptors — both as
serialized bytes and in which icon `fileNames` assigns to `x.png` — 
because no sort of the records happens before assembly. -/
theorem assembly_order_sensitive :
    c4WorldA.imageFiles.Perm c4WorldB.imageFiles ∧
      (generateIconTheme "out" c4WorldA).json ≠ (generateIconTheme "out" c4WorldB).json ∧
      recordGet (generateIconTheme "out" c4WorldA).theme.fileNames "x.png" ≠
        recordGet (generateIconTheme "out" c4WorldB).theme.fileNames "x.png" := by
  refine ⟨List.Perm.swap _ _ _, ?_, ?_⟩
  · decide
  · decide

theorem loop_fileNames_get (outDir : String) (supported : List String) (size : Int)
    (renderOk : String → Bool) (name : String) (l : List String) : ∀ (st : LoopState),
    recordGet ((l.foldl (processFile outDir supported size renderOk) st)).fileNames name =
      match (l.filter (fun f => fileContributes supported renderOk f &&
          (pathBasename f == name))).getLast? with
      | some f => some (generateIconId f)
      | none => recordGet st.fileNames name := by
  induction l using List.reverseRecOn with
  | nil =>
    intro st
    simp
  | append_singleton l a ih =>
    intro st
    rw [List.foldl_append, List.filter_append]
    simp only [List.foldl_cons, List.foldl_nil, List.filter]
    cases hq : fileQualifiesExt supported a with
    | false =>
      have hc : (fileContributes supported renderOk a && (pathBasename a == name)) = false := by
        simp [fileContributes, hq]
      rw [processFile_not_ext _ _ _ _ _ _ hq, hc, ih st]
      simp
    | true =>
      cases hr : renderOk a with
      | false =>
        have hc : (fileContributes supported renderOk a && (pathBasename a == name)) = false := by
          simp [fileContributes, hq, hr]
        rw [processFile_render_fail _ _ _ _ _ _ hq hr, hc, ih st]
        simp
      | true =>
        rw [processFile_render_ok _ _ _ _ _ _ hq hr]
        simp only [recordGet_recordSet]
        by_cases hn : name = pathBasename a
        · have hc : (fileContributes supported renderOk a && (pathBasename a == name)) = true := by
            simp [fileContributes, hq, hr, hn]
          rw [hc, if_pos hn]
          simp [List.getLast?_concat]
        · have hc : (fileContributes supported renderOk a && (pathBasename a == name)) = false := by
            simp [fileContributes, hq, hr]
            exact fun hba => hn hba.symm
          rw [hc, if_neg hn, ih st]
          simp

/-- Claim C4 (amended): no sort happens before assembly, so the
descriptor depends on the discovery traversal order.  Deterministically,
`fileNames` maps a base name to the icon identifier of the last file in
traversal order that carries that base name, has a supported extension
and rendered successfully — so two traversal orders agree exactly when
that last contributor is the same. -/
theorem fileNames_last_write_wins (outDir : String) (w : World) (name : String) :
    recordGet (generateIconTheme outDir w).theme.fileNames name =
      match (w.imageFiles.filter (fun f =>
          fileContributes (getSupportedExtensions w.config) w.renderOk f &&
            (pathBasename f == name))).getLast? with
      | some f => some (generateIconId f)
      | none => none := by
  rw [generateIconTheme_theme]
  show recordGet (cycleLoopState outDir w).fileNames name = _
  unfold cycleLoopState
  rw [loop_fileNames_get]
  rfl

/-! ### Claim C6: idempotence of regeneration -/

theorem foldl_induction_mem {α β : Type} (f : α → β → α) (l : List β) (init : α)
    (P : α → Prop) (h0 : P init) (hstep : ∀ a b, b ∈ l → P a → P (f a b)) :
    P (l.foldl f init) := by
  induction l generalizing init with
  | nil => exact h0
  | cons b l ih =>
    exact ih (f init b) (hstep init b (List.mem_cons_self b l) h0)
      (fun a c hc hP => hstep a c (List.mem_cons_of_mem b hc) hP)

theorem pathJoin_right_inj (d : String) {a b : String} (h : a ≠ b) :
    pathJoin d a ≠ pathJoin d b := by
  intro he
  apply h
  have hdata := congrArg String.data he
  simp only [pathJoin, String.data_append] at hdata
  exact String.ext (List.append_cancel_left hdata)

theorem loop_theme_parts_congr (outDir : String) (supported : List String) (size : Int)
    (renderOk : String → Bool) (l : List String) : ∀ (st1 st2 : LoopState),
    st1.iconDefinitions = st2.iconDefinitions → st1.fileNames = st2.fileNames →
    (l.foldl (processFile outDir supported size renderOk) st1).iconDefinitions =
        (l.foldl (processFile outDir supported size renderOk) st2).iconDefinitions ∧
      (l.foldl (processFile outDir supported size renderOk) st1).fileNames =
        (l.foldl (processFile outDir supported size renderOk) st2).fileNames := by
  induction l with
  | nil => exact fun st1 st2 h1 h2 => ⟨h1, h2⟩
  | cons f l ih =>
    intro st1 st2 h1 h2
    simp only [List.foldl_cons]
    apply ih
    · cases hq : fileQualifiesExt supported f with
      | false =>
        rw [processFile_not_ext _ _ _ _ _ _ hq, processFile_not_ext _ _ _ _ _ _ hq]
        exact h1
      | true =>
        cases hr : renderOk f with
        | false =>
          rw [processFile_render_fail _ _ _ _ _ _ hq hr,
            processFile_render_fail _ _ _ _ _ _ hq hr]
          exact h1
        | true =>
          rw [processFile_render_ok _ _ _ _ _ _ hq hr,
            processFile_render_ok _ _ _ _ _ _ hq hr]
          simpa using congrArg (fun m => recordSet m (generateIconId f)
            (relativeIconPath outDir f)) h1
    · cases hq : fileQualifiesExt supported f with
      | false =>
        rw [processFile_not_ext _ _ _ _ _ _ hq, processFile_not_ext _ _ _ _ _ _ hq]
        exact h2
      | true =>
        cases hr : renderOk f with
        | false =>
          rw [processFile_render_fail _ _ _ _ _ _ hq hr,
            processFile_render_fail _ _ _ _ _ _ hq hr]
          exact h2
        | true =>
          rw [processFile_render_ok _ _ _ _ _ _ hq hr,
            processFile_render_ok _ _ _ _ _ _ hq hr]
          simpa using congrArg (fun m => recordSet m (pathBasename f) (generateIconId f)) h2

/-- The theme object a cycle builds does not depend on the current
contents of the output area: it is a function of the workspace list, the
configuration and the render outcomes only. -/
theorem cycleTheme_disk_invariant (outDir : String) (w : World) (d : JRecord) :
    cycleTheme outDir { w with disk := d } = cycleTheme outDir w := by
  obtain ⟨h1, h2⟩ := loop_theme_parts_congr outDir (getSupportedExtensions w.config)
    (getIconSize w.config) w.renderOk w.imageFiles ⟨[], [], d, [], []⟩ ⟨[], [], w.disk, [], []⟩
    rfl rfl
  unfold cycleTheme cycleLoopState
  rw [IconTheme.mk.injEq]
  exact ⟨congrArg (spreadRecord defaultIconDefinitions) h1, rfl, h2⟩

/-- After a cycle, the canonical descriptor path holds exactly the
serialized theme of that cycle: the descriptor write set it, and
`createDefaultIcons` touches only the three default icon paths. -/
theorem descriptor_on_disk (outDir : String) (w : World) :
    recordGet (runCycle outDir w).disk (iconThemePath outDir) =
      some (serializeIconTheme (cycleTheme outDir w)) := by
  show recordGet (generateIconTheme outDir w).disk (iconThemePath outDir) = _
  rw [generateIconTheme_disk]
  unfold createDefaultIcons
  refine foldl_induction_mem _ _ _
    (fun acc : JRecord × List FsOp =>
      recordGet acc.1 (iconThemePath outDir) = some (serializeIconTheme (cycleTheme outDir w)))
    ?_ ?_
  · show recordGet (recordSet (cycleLoopState outDir w).disk (iconThemePath outDir)
        (serializeIconTheme (cycleTheme outDir w))) (iconThemePath outDir) =
      some (serializeIconTheme (cycleTheme outDir w))
    rw [recordGet_recordSet]
    simp
  · intro a nc hnc hP
    by_cases h : recordHasKey a.1 (pathJoin outDir nc.1) = true
    · simpa [h] using hP
    · simp only [Bool.not_eq_true] at h
      simp only [h, Bool.false_eq_true, if_false]
      show recordGet (recordSet a.1 (pathJoin outDir nc.1) _) (iconThemePath outDir) = _
      rw [recordGet_recordSet]
      have hne : iconThemePath outDir ≠ pathJoin outDir nc.1 := by
        apply pathJoin_right_inj
        fin_cases hnc <;> decide
      rw [if_neg hne]
      exact hP

/-- Claim C6: confirmed.  With no change to the workspace, the render
outcomes or the configuration between two runs (only the output area
differs, having absorbed the first run), the second regeneration
produces byte-identical descriptor output: it writes the same serialized
bytes, and the descriptor on disk afterwards is unchanged. -/
theorem regenerate_idempotent (outDir : String) (w : World) :
    (generateIconTheme outDir (runCycle outDir w)).json = (generateIconTheme outDir w).json ∧
      recordGet (runCycle outDir (runCycle outDir w)).disk (iconThemePath outDir) =
        recordGet (runCycle outDir w).disk (iconThemePath outDir) := by
  have htheme : cycleTheme outDir (runCycle outDir w) = cycleTheme outDir w :=
    cycleTheme_disk_invariant outDir w _
  constructor
  · rw [generateIconTheme_json, generateIconTheme_json, htheme]
  · rw [descriptor_on_disk, descriptor_on_disk, htheme]

/-! ### Claim C7: descriptor consistency -/

theorem dirnameAux_no_slash (xs : List Char) (h : ('/' : Char) ∉ xs) :
    dirnameAux xs = none := by
  induction xs with
  | nil => rfl
  | cons c cs ih =>
    have hcs : dirnameAux cs = none := ih (fun hm => h (List.mem_cons_of_mem c hm))
    have hc : ¬ c = '/' := fun he => h (he ▸ List.mem_cons_self c cs)
    simp [dirnameAux, hcs, hc]

theorem dirnameAux_append (xs : List Char) (h : ('/' : Char) ∉ xs) :
    ∀ dl : List Char, dirnameAux (dl ++ '/' :: xs) = some dl := by
  intro dl
  induction dl with
  | nil => simp [dirnameAux, dirnameAux_no_slash xs h]
  | cons c dl ih => simp [dirnameAux, ih]

theorem pathDirname_pathJoin (d f : String) (hd : d ≠ "") (hf : ('/' : Char) ∉ f.data) :
    pathDirname (pathJoin d f) = d := by
  unfold pathDirname pathJoin
  have hdata : (d ++ "/" ++ f).data = d.data ++ '/' :: f.data := by
    simp [String.data_append]
  rw [hdata, dirnameAux_append f.data hf d.data]
  obtain ⟨c, cs, hdd⟩ : ∃ c cs, d.data = c :: cs := by
    cases hD : d.data with
    | nil => exact absurd (String.ext (hD.trans rfl)) hd
    | cons c cs => exact ⟨c, cs, rfl⟩
  rw [hdd]
  exact String.ext hdd.symm

theorem isPrefixOf_append_self (l m : List Char) : l.isPrefixOf (l ++ m) = true := by
  induction l with
  | nil => cases m <;> rfl
  | cons a l ih => simp [List.isPrefixOf, ih]

theorem pathRelative_pathJoin (d x : String) : pathRelative d (pathJoin d x) = x := by
  have hdata : (d ++ "/" ++ x).data = (d ++ "/").data ++ x.data := by
    simp [String.data_append]
  simp only [pathRelative, pathJoin, hdata, isPrefixOf_append_self, if_true]
  rw [List.drop_left]

theorem relativeIconPath_eq (outDir f : String) (hd : outDir ≠ "") :
    relativeIconPath outDir f = generateIconId f ++ ".png" := by
  unfold relativeIconPath thumbnailPathOf iconThemePath
  rw [pathDirname_pathJoin outDir iconThemeFileName hd (by decide), pathRelative_pathJoin]

theorem resolveIconPath_iconId (dir f : String) :
    resolveIconPath dir (generateIconId f ++ ".png") =
      pathJoin dir (generateIconId f ++ ".png") := by
  unfold resolveIconPath
  obtain ⟨rest, hr⟩ : ∃ rest, (generateIconId f ++ ".png").data = 'i' :: rest := by
    refine ⟨"mg_".data ++ (normalizeId f).data ++ (".png").data, ?_⟩
    show (("img_" ++ normalizeId f) ++ ".png").data = _
    rw [String.data_append, String.data_append,
      show ("img_").data = 'i' :: "mg_".data from rfl]
    simp
  rw [hr, show ("./").data = '.' :: ['/'] from rfl]
  simp [List.isPrefixOf]

theorem resolveIconPath_relativeIconPath (outDir f : String) (hd : outDir ≠ "") :
    resolveIconPath (pathDirname (iconThemePath outDir)) (relativeIconPath outDir f) =
      thumbnailPathOf outDir f := by
  rw [relativeIconPath_eq outDir f hd,
    show pathDirname (iconThemePath outDir) = outDir from
      pathDirname_pathJoin _ _ hd (by decide),
    resolveIconPath_iconId]
  rfl

theorem mem_recordSet (m : JRecord) (k v : String) (kv : String × String)
    (h : kv ∈ recordSet m k v) : kv = (k, v) ∨ kv ∈ m := by
  induction m with
  | nil =>
    simp [recordSet] at h
    exact Or.inl h
  | cons p m ih =>
    by_cases hp : p.1 = k
    · simp only [recordSet, hp, beq_self_eq_true, if_true, List.mem_cons] at h
      rcases h with h | h
      · exact Or.inl h
      · exact Or.inr (List.mem_cons_of_mem p h)
    · simp only [recordSet, hp, beq_iff_eq, if_false, List.mem_cons] at h
      rcases h with h | h
      · exact Or.inr (by simp [h])
      · rcases ih h with h2 | h2
        · exact Or.inl h2
        · exact Or.inr (List.mem_cons_of_mem p h2)

theorem recordHasKey_cons (kv : String × String) (m : JRecord) (k : String) :
    recordHasKey (kv :: m) k = ((kv.1 == k) || recordHasKey m k) := by
  by_cases h : kv.1 = k <;> simp [recordHasKey, recordGet, h]

theorem recordHasKey_spreadRecord (adds : JRecord) : ∀ (base : JRecord) (k : String),
    recordHasKey (spreadRecord base adds) k = (recordHasKey base k || recordHasKey adds k) := by
  induction adds with
  | nil =>
    intro base k
    simp [spreadRecord, recordHasKey, recordGet]
  | cons kv adds ih =>
    intro base k
    show recordHasKey (spreadRecord (recordSet base kv.1 kv.2) adds) k = _
    rw [ih, recordHasKey_recordSet, recordHasKey_cons]
    by_cases h : k = kv.1
    · simp [h]
    · have h2 : ¬ kv.1 = k := fun he => h he.symm
      have hb1 : (k == kv.1) = false := beq_eq_false_iff_ne.mpr h
      have hb2 : (kv.1 == k) = false := beq_eq_false_iff_ne.mpr h2
      simp [hb1, hb2]

/-- World on which the cycle commits a descriptor referencing artifacts
that are absent at commit time: an empty output area. -/
def c7World : World := ⟨[], fun _ => false, {}, []⟩

/-- Claim C7: refuted as stated.  On a fresh output area the committed
descriptor maps `_file` to `./default-file.png`, yet at the moment the
descriptor write completes that artifact does not exist on disk:
`createDefaultIcons` only runs after the descriptor is written. -/
theorem descriptor_refs_missing_artifact_at_commit :
    recordGet (generateIconTheme "out" c7World).theme.iconDefinitions "_file" =
        some "./default-file.png" ∧
      recordGet (generateIconTheme "out" c7World).diskAtCommit
        (resolveIconPath (pathDirname (iconThemePath "out")) "./default-file.png") = none := by
  constructor
  · decide
  · decide

/-- Claim C7 (amended): in every committed descriptor, each value of
`fileNames` is a key of `iconDefinitions`; and each definition recorded
for a rendered thumbnail references an artifact that exists on disk when
the descriptor is committed.  The three default icon definitions are the
exception the counterexample forces: their files are created only after
the descriptor write, so they may be absent at commit time. -/
theorem descriptor_consistency (outDir : String) (w : World) (hd : outDir ≠ "") :
    (∀ kv ∈ (generateIconTheme outDir w).theme.fileNames,
        recordHasKey (generateIconTheme outDir w).theme.iconDefinitions kv.2 = true) ∧
      ∀ kv ∈ (generateIconTheme outDir w).thumbDefinitions,
        recordGet (generateIconTheme outDir w).diskAtCommit
          (resolveIconPath (pathDirname (iconThemePath outDir)) kv.2) ≠ none := by
  have hloop :
      (∀ kv ∈ (cycleLoopState outDir w).fileNames,
          recordHasKey (cycleLoopState outDir w).iconDefinitions kv.2 = true) ∧
        ∀ kv ∈ (cycleLoopState outDir w).iconDefinitions,
          recordGet (cycleLoopState outDir w).disk
            (resolveIconPath (pathDirname (iconThemePath outDir)) kv.2) ≠ none := by
    unfold cycleLoopState
    refine foldl_induction _ _ _
      (fun st : LoopState =>
        (∀ kv ∈ st.fileNames, recordHasKey st.iconDefinitions kv.2 = true) ∧
          ∀ kv ∈ st.iconDefinitions,
            recordGet st.disk
              (resolveIconPath (pathDirname (iconThemePath outDir)) kv.2) ≠ none)
      ⟨fun kv hkv => absurd hkv (by simp), fun kv hkv => absurd hkv (by simp)⟩ ?_
    intro st f hP
    cases hq : fileQualifiesExt (getSupportedExtensions w.config) f with
    | false =>
      rw [processFile_not_ext _ _ _ _ _ _ hq]
      exact hP
    | true =>
      cases hr : w.renderOk f with
      | false =>
        rw [processFile_render_fail _ _ _ _ _ _ hq hr]
        exact hP
      | true =>
        rw [processFile_render_ok _ _ _ _ _ _ hq hr]
        constructor
        · intro kv hkv
          rcases mem_recordSet _ _ _ kv hkv with h | h
          · rw [recordHasKey_recordSet]
            simp [h]
          · rw [recordHasKey_recordSet]
            rw [hP.1 kv h]
            simp
        · intro kv hkv
          rcases mem_recordSet _ _ _ kv hkv with h | h
          · rw [h]
            show recordGet _ (resolveIconPath _ (relativeIconPath outDir f)) ≠ none
            rw [resolveIconPath_relativeIconPath outDir f hd, recordGet_recordSet]
            simp
          · exact recordGet_ne_none_of_recordSet_prev _ _ _ _ (hP.2 kv h)
  constructor
  · intro kv hkv
    rw [generateIconTheme_theme] at hkv ⊢
    show recordHasKey (spreadRecord defaultIconDefinitions
      (cycleLoopState outDir w).iconDefinitions) kv.2 = true
    rw [recordHasKey_spreadRecord]
    rw [hloop.1 kv hkv]
    simp
  · intro kv hkv
    rw [generateIconTheme_thumbDefinitions] at hkv
    rw [generateIconTheme_diskAtCommit]
    exact recordGet_ne_none_of_recordSet_prev _ _ _ _ (hloop.2 kv hkv)

/-- World for the consistency witness: one rendered image. -/
def c7WitnessWorld : World := ⟨["a.png"], fun _ => true, {}, []⟩

/-- Claim C7 (amended) witness: on the concrete one-file cycle, the
`fileNames` value `img_a_png` is a key of `iconDefinitions`, and the
artifact of the thumbnail definition is on disk at commit time. -/
theorem descriptor_consistency_witness :
    recordHasKey (generateIconTheme "out" c7WitnessWorld).theme.iconDefinitions
        "img_a_png" = true ∧
      recordGet (generateIconTheme "out" c7WitnessWorld).diskAtCommit
        (resolveIconPath (pathDirname (iconThemePath "out"))
          (relativeIconPath "out" "a.png")) ≠ none :=
  ⟨(descriptor_consistency "out" c7WitnessWorld (by decide)).1
      ⟨"a.png", "img_a_png"⟩ (by decide),
    (descriptor_consistency "out" c7WitnessWorld (by decide)).2
      ⟨"img_a_png", relativeIconPath "out" "a.png"⟩ (by decide)⟩

/-! ### Claim C9: frame effect of a cycle on the output area -/

/-- World for the C9 counterexample: empty workspace, empty output
area. -/
def c9World : World := ⟨[], fun _ => false, {}, []⟩

set_option maxRecDepth 80000 in
/-- Claim C9: refuted in its last clause.  A cycle on a fresh output
area writes `default-file.png`, which is neither one of the thumbnails
it renders (there are none) nor the descriptor: the cycle touches the
three default placeholder icons besides the thumbnails and the
descriptor. -/
theorem cycle_writes_default_icon :
    ((generateIconTheme "out" c9World).ops.contains
        (FsOp.write (pathJoin "out" "default-file.png") (defaultIconBytes "gray" 16))) = true ∧
      (((generateIconTheme "out" c9World).renders.map RenderOp.dst).contains
        (pathJoin "out" "default-file.png")) = false ∧
      pathJoin "out" "default-file.png" ≠ iconThemePath "out" := by
  refine ⟨?_, ?_, ?_⟩
  · decide
  · decide
  · decide

theorem createDefaultIcons_frame (outDir : String) (size : Int) (acc : JRecord × List FsOp)
    (w : World) (p : String) (renders : List RenderOp)
    (h1 : recordGet w.disk p ≠ none → recordGet acc.1 p ≠ none)
    (h2 : (∀ op ∈ acc.2, FsOp.target op ≠ p) → recordGet acc.1 p = recordGet w.disk p)
    (h3 : ∀ op ∈ acc.2, FsOp.target op ∈ renders.map RenderOp.dst ∨
        FsOp.target op = iconThemePath outDir ∨
        FsOp.target op ∈ [pathJoin outDir "default-file.png",
          pathJoin outDir "default-folder.png", pathJoin outDir "default-folder-open.png"]) :
    (recordGet w.disk p ≠ none → recordGet (createDefaultIcons outDir size acc).1 p ≠ none) ∧
      ((∀ op ∈ (createDefaultIcons outDir size acc).2, FsOp.target op ≠ p) →
        recordGet (createDefaultIcons outDir size acc).1 p = recordGet w.disk p) ∧
      ∀ op ∈ (createDefaultIcons outDir size acc).2,
        FsOp.target op ∈ renders.map RenderOp.dst ∨
          FsOp.target op = iconThemePath outDir ∨
          FsOp.target op ∈ [pathJoin outDir "default-file.png",
            pathJoin outDir "default-folder.png", pathJoin outDir "default-folder-open.png"] := by
  unfold createDefaultIcons
  refine foldl_induction_mem _ _ _
    (fun a : JRecord × List FsOp =>
      (recordGet w.disk p ≠ none → recordGet a.1 p ≠ none) ∧
        ((∀ op ∈ a.2, FsOp.target op ≠ p) → recordGet a.1 p = recordGet w.disk p) ∧
        ∀ op ∈ a.2, FsOp.target op ∈ renders.map RenderOp.dst ∨
          FsOp.target op = iconThemePath outDir ∨
          FsOp.target op ∈ [pathJoin outDir "default-file.png",
            pathJoin outDir "default-folder.png", pathJoin outDir "default-folder-open.png"])
    ⟨h1, h2, h3⟩ ?_
  intro a nc hnc hP
  by_cases h : recordHasKey a.1 (pathJoin outDir nc.1) = true
  · simpa [h] using hP
  · simp only [Bool.not_eq_true] at h
    simp only [h, Bool.false_eq_true, if_false]
    refine ⟨?_, ?_, ?_⟩
    · exact fun hw => recordGet_ne_none_of_recordSet_prev _ _ _ _ (hP.1 hw)
    · intro hyp
      have hold : ∀ op ∈ a.2, FsOp.target op ≠ p :=
        fun op hop => hyp op (List.mem_append_left _ hop)
      have hq : pathJoin outDir nc.1 ≠ p :=
        hyp (FsOp.write (pathJoin outDir nc.1) (defaultIconBytes nc.2 size))
          (List.mem_append_right _ (by simp))
      show recordGet (recordSet a.1 (pathJoin outDir nc.1) _) p = _
      rw [recordGet_recordSet, if_neg (fun he => hq he.symm)]
      exact hP.2.1 hold
    · intro op hop
      rcases List.mem_append.mp hop with hmem | hmem
      · exact hP.2.2 op hmem
      · simp at hmem
        subst hmem
        refine Or.inr (Or.inr ?_)
        fin_cases hnc <;> simp [FsOp.target]

/-- Claim C9 (amended): a regeneration cycle never deletes anything from
the output area — whatever existed before still exists after, so a
thumbnail generated earlier for a since-removed source persists — and a path no
performed operation targets keeps its exact prior content.  The targets
of the performed operations are exactly covered by: the thumbnails the
cycle renders, the descriptor, and the three default placeholder icons
(written only when absent). -/
theorem cycle_frame_effect (outDir : String) (w : World) (p : String) :
    (recordGet w.disk p ≠ none → recordGet (runCycle outDir w).disk p ≠ none) ∧
      ((∀ op ∈ (generateIconTheme outDir w).ops, FsOp.target op ≠ p) →
        recordGet (runCycle outDir w).disk p = recordGet w.disk p) ∧
      ∀ op ∈ (generateIconTheme outDir w).ops,
        FsOp.target op ∈ (generateIconTheme outDir w).renders.map RenderOp.dst ∨
          FsOp.target op = iconThemePath outDir ∨
          FsOp.target op ∈ [pathJoin outDir "default-file.png",
            pathJoin outDir "default-folder.png", pathJoin outDir "default-folder-open.png"] := by
  have hloop :
      (recordGet w.disk p ≠ none → recordGet (cycleLoopState outDir w).disk p ≠ none) ∧
        ((∀ op ∈ (cycleLoopState outDir w).ops, FsOp.target op ≠ p) →
          recordGet (cycleLoopState outDir w).disk p = recordGet w.disk p) ∧
        ∀ op ∈ (cycleLoopState outDir w).ops,
          FsOp.target op ∈ (cycleLoopState outDir w).renders.map RenderOp.dst := by
    unfold cycleLoopState
    refine foldl_induction _ _ _
      (fun st : LoopState =>
        (recordGet w.disk p ≠ none → recordGet st.disk p ≠ none) ∧
          ((∀ op ∈ st.ops, FsOp.target op ≠ p) → recordGet st.disk p = recordGet w.disk p) ∧
          ∀ op ∈ st.ops, FsOp.target op ∈ st.renders.map RenderOp.dst)
      ⟨fun h => h, fun _ => rfl, fun op hop => absurd hop (by simp)⟩ ?_
    intro st f hP
    cases hq : fileQualifiesExt (getSupportedExtensions w.config) f with
    | false =>
      rw [processFile_not_ext _ _ _ _ _ _ hq]
      exact hP
    | true =>
      cases hr : w.renderOk f with
      | false =>
        rw [processFile_render_fail _ _ _ _ _ _ hq hr]
        refine ⟨hP.1, hP.2.1, ?_⟩
        intro op hop
        rw [List.map_append]
        exact List.mem_append_left _ (hP.2.2 op hop)
      | true =>
        rw [processFile_render_ok _ _ _ _ _ _ hq hr]
        refine ⟨fun h => recordGet_ne_none_of_recordSet_prev _ _ _ _ (hP.1 h), ?_, ?_⟩
        · intro hyp
          have hold : ∀ op ∈ st.ops, FsOp.target op ≠ p :=
            fun op hop => hyp op (List.mem_append_left _ hop)
          have htp : thumbnailPathOf outDir f ≠ p :=
            hyp (FsOp.write (thumbnailPathOf outDir f) (thumbBytes f (getIconSize w.config)))
              (List.mem_append_right _ (by simp))
          show recordGet (recordSet st.disk (thumbnailPathOf outDir f) _) p = _
          rw [recordGet_recordSet, if_neg (fun he => htp he.symm)]
          exact hP.2.1 hold
        · intro op hop
          rw [List.map_append]
          rcases List.mem_append.mp hop with h | h
          · exact List.mem_append_left _ (hP.2.2 op h)
          · apply List.mem_append_right
            simp at h
            subst h
            simp [FsOp.target]
  obtain ⟨hL1, hL2, hL3⟩ := hloop
  have hc2 : (∀ op ∈ (cycleLoopState outDir w).ops ++
        [FsOp.write (iconThemePath outDir) (serializeIconTheme (cycleTheme outDir w))],
        FsOp.target op ≠ p) →
      recordGet (recordSet (cycleLoopState outDir w).disk (iconThemePath outDir)
        (serializeIconTheme (cycleTheme outDir w))) p = recordGet w.disk p := by
    intro hyp
    have hold : ∀ op ∈ (cycleLoopState outDir w).ops, FsOp.target op ≠ p :=
      fun op hop => hyp op (List.mem_append_left _ hop)
    have hth : iconThemePath outDir ≠ p :=
      hyp (FsOp.write (iconThemePath outDir) (serializeIconTheme (cycleTheme outDir w)))
        (List.mem_append_right _ (by simp))
    rw [recordGet_recordSet, if_neg (fun he => hth he.symm)]
    exact hL2 hold
  have hc3 : ∀ op ∈ (cycleLoopState outDir w).ops ++
        [FsOp.write (iconThemePath outDir) (serializeIconTheme (cycleTheme outDir w))],
      FsOp.target op ∈ (cycleLoopState outDir w).renders.map RenderOp.dst ∨
        FsOp.target op = iconThemePath outDir ∨
        FsOp.target op ∈ [pathJoin outDir "default-file.png",
          pathJoin outDir "default-folder.png", pathJoin outDir "default-folder-open.png"] := by
    intro op hop
    rcases List.mem_append.mp hop with hmem | hmem
    · exact Or.inl (hL3 op hmem)
    · simp at hmem
      subst hmem
      exact Or.inr (Or.inl rfl)
  have happ := createDefaultIcons_frame outDir (getIconSize w.config)
    (recordSet (cycleLoopState outDir w).disk (iconThemePath outDir)
        (serializeIconTheme (cycleTheme outDir w)),
      (cycleLoopState outDir w).ops ++
        [FsOp.write (iconThemePath outDir) (serializeIconTheme (cycleTheme outDir w))])
    w p (cycleLoopState outDir w).renders
    (fun h => recordGet_ne_none_of_recordSet_prev _ _ _ _ (hL1 h)) hc2 hc3
  exact ⟨fun h => happ.1 h, happ.2.1, happ.2.2⟩

/-- World for the C9 witness: a stale thumbnail of a removed source is
already in the output area. -/
def c9WitnessWorld : World := ⟨[], fun _ => false, {},
  [(pathJoin "out" "img_gone_png.png", "PNG")]⟩

set_option maxRecDepth 80000 in
/-- Claim C9 (amended) witness: the stale thumbnail still exists after
the cycle, and a path outside the write set of the cycle keeps its prior
content. -/
theorem cycle_frame_effect_witness :
    recordGet (runCycle "out" c9WitnessWorld).disk (pathJoin "out" "img_gone_png.png") ≠ none ∧
      recordGet (runCycle "out" c9WitnessWorld).disk "elsewhere/file.txt" =
        recordGet c9WitnessWorld.disk "elsewhere/file.txt" :=
  ⟨(cycle_frame_effect "out" c9WitnessWorld (pathJoin "out" "img_gone_png.png")).1 (by decide),
    (cycle_frame_effect "out" c9WitnessWorld "elsewhere/file.txt").2.1 (by decide)⟩

end IconPreview
